import Mathlib

/-!
Shallow embedding of the duplicate-matching engine of `src/analyzers/duplicate.rs`
(dj-library-manager).  Rust strings are modelled as Lean `String` values and the
Rust `str` primitives used by the engine (`to_lowercase`, `trim`, `replace`,
`split`, `find`, `rfind`, `contains`, `ends_with`) are re-implemented below over
`List Char`, faithful to their Rust semantics on the ASCII inputs the engine
manipulates.  All definitions are executable and structurally recursive (the
occurrence-skipping loops carry an explicit fuel argument equal to the string
length, which is always sufficient because every step consumes at least one
character).
-/

/-- Rust `str::starts_with` on character lists: `startsWithL s pat` is true when
`pat` is a prefix of `s`. -/
def startsWithL : List Char → List Char → Bool
  | _, [] => true
  | [], _ :: _ => false
  | c :: cs, p :: ps => c == p && startsWithL cs ps

/-- Rust `str::contains` on character lists: substring containment. -/
def containsL (s pat : List Char) : Bool :=
  match s with
  | [] => startsWithL [] pat
  | c :: rest => startsWithL (c :: rest) pat || containsL rest pat

/-- Rust `str::contains` lifted to `String`. -/
def containsStr (s pat : String) : Bool := containsL s.data pat.data

/-- Rust `str::ends_with` on `String`: byte-for-byte suffix test (case-sensitive). -/
def endsWithStr (s pat : String) : Bool := startsWithL s.data.reverse pat.data.reverse

/-- Fuel-indexed worker for Rust `str::replace`: replaces every non-overlapping
occurrence of `pat` left to right.  The fuel is the string length plus one, which
suffices because each step consumes at least one character of `s` when `pat` is
nonempty (the engine only ever replaces nonempty literals). -/
def replaceAux : Nat → List Char → List Char → List Char → List Char
  | 0, s, _, _ => s
  | fuel + 1, s, pat, rep =>
    match s with
    | [] => []
    | c :: rest =>
      if startsWithL (c :: rest) pat then rep ++ replaceAux fuel ((c :: rest).drop pat.length) pat rep
      else c :: replaceAux fuel rest pat rep

/-- Rust `str::replace` with a string pattern, lifted to `String`. -/
def replaceStr (s pat rep : String) : String :=
  ⟨replaceAux (s.data.length + 1) s.data pat.data rep.data⟩

/-- Fuel-indexed worker for Rust `str::split` with a string pattern: splits at
every non-overlapping occurrence, left to right, keeping empty segments. -/
def splitOnAux : Nat → List Char → List Char → List (List Char)
  | 0, s, _ => [s]
  | fuel + 1, s, sep =>
    match s with
    | [] => [[]]
    | c :: rest =>
      if startsWithL (c :: rest) sep then
        [] :: splitOnAux fuel ((c :: rest).drop sep.length) sep
      else
        match splitOnAux fuel rest sep with
        | [] => [[c]]
        | p :: ps => (c :: p) :: ps

/-- Rust `str::split` with a (nonempty) string pattern, lifted to `String`. -/
def splitOnStr (s sep : String) : List String :=
  (splitOnAux (s.data.length + 1) s.data sep.data).map (fun l => ⟨l⟩)

/-- Rust `str::split` with a single-character pattern. -/
def splitCharAux (c : Char) : List Char → List Char → List (List Char)
  | [], acc => [acc.reverse]
  | x :: xs, acc =>
    if x == c then acc.reverse :: splitCharAux c xs []
    else splitCharAux c xs (x :: acc)

/-- Rust `str::split(',')` lifted to `String`. -/
def splitCharStr (s : String) (c : Char) : List String :=
  (splitCharAux c s.data []).map (fun l => ⟨l⟩)

/-- Rust `str::trim` on character lists (whitespace stripped from both ends). -/
def trimL (s : List Char) : List Char :=
  ((s.dropWhile Char.isWhitespace).reverse.dropWhile Char.isWhitespace).reverse

/-- Rust `str::trim` lifted to `String`. -/
def trimStr (s : String) : String := ⟨trimL s.data⟩

/-- Rust `str::to_lowercase` (ASCII-faithful: maps A-Z to a-z). -/
def lowerStr (s : String) : String := ⟨s.data.map Char.toLower⟩

/-- Rust `str::find(char)`: index of the first occurrence of a character. -/
def findCharIdx : List Char → Char → Option Nat
  | [], _ => none
  | x :: xs, c => if x == c then some 0 else (findCharIdx xs c).map (fun i => i + 1)

/-- Rust `str::rfind(char)`: index of the last occurrence of a character. -/
def rfindCharIdx (s : List Char) (c : Char) : Option Nat :=
  match findCharIdx s.reverse c with
  | none => none
  | some i => some (s.length - 1 - i)

/-- Model of the pre-compiled regex replacement `title_regex.replace(s, "")` with
pattern `^\d+\.?\s*` (duplicate.rs line 32 and 98): if the string starts with at
least one digit, the leading digit run, an optional following dot, and any
following whitespace are removed; otherwise the string is unchanged. -/
def stripTrackNumber (s : List Char) : List Char :=
  let ds := s.dropWhile Char.isDigit
  if ds.length = s.length then s
  else
    let afterDot := match ds with
      | '.' :: t => t
      | _ => ds
    afterDot.dropWhile Char.isWhitespace

/-- Lexicographic order on character lists, matching Rust's `&str` ordering
(byte order coincides with code-point order under UTF-8). -/
def leChars : List Char → List Char → Bool
  | [], _ => true
  | _ :: _, [] => false
  | a :: as, b :: bs => if a < b then true else if b < a then false else leChars as bs

/-- Insertion into a sorted list of strings (as character lists inside `String`). -/
def insertStr (a : String) : List String → List String
  | [] => [a]
  | b :: bs => if leChars a.data b.data then a :: b :: bs else b :: insertStr a bs

/-- Model of `Vec::<&str>::sort` (duplicate.rs line 59): insertion sort under the
lexicographic order.  The order is antisymmetric, so the result coincides with
Rust's stable sort. -/
def sortStrs : List String → List String
  | [] => []
  | a :: as => insertStr a (sortStrs as)

/-- Rust `Vec::join(sep)` for strings. -/
def joinStrs (sep : String) : List String → String
  | [] => ""
  | [a] => a
  | a :: b :: rest => a ++ sep ++ joinStrs sep (b :: rest)

/-- Decimal rendering of a natural number, as Rust's `Display` for integers. -/
def natDigitsAux : Nat → Nat → List Char → List Char
  | 0, _, acc => acc
  | fuel + 1, n, acc =>
    if n < 10 then Char.ofNat (48 + n) :: acc
    else natDigitsAux fuel (n / 10) (Char.ofNat (48 + n % 10) :: acc)

/-- Decimal rendering lifted to `String`. -/
def natStr (n : Nat) : String := ⟨natDigitsAux (n + 1) n []⟩

/-- Number of hundredths of a megabyte in `bytes` bytes, rounded to nearest with
ties to even.  This models `bytes as f64 / 1_048_576.0` formatted by Rust's
`{:.2}`: division of an integer below 2^53 by the power of two 2^20 is exact in
f64, and Rust's fixed-precision formatting rounds the exact value to nearest,
ties to even. -/
def mbHundredths (bytes : Nat) : Nat :=
  let q := bytes * 100
  let n := q / 1048576
  let r := q % 1048576
  if 2 * r < 1048576 then n
  else if 1048576 < 2 * r then n + 1
  else if n % 2 = 0 then n else n + 1

/-- Rendering of a byte count in megabytes with two decimal places, modelling
`format!("{:.2}", bytes as f64 / 1_048_576.0)`. -/
def fmtMB (bytes : Nat) : String :=
  let h := mbHundredths bytes
  natStr (h / 100) ++ "." ++ (if h % 100 < 10 then "0" else "") ++ natStr (h % 100)

/-- File descriptor consumed by the duplicate analyzer (struct `AudioFile`,
lib.rs lines 10-19).  Only the fields the analyzer reads are modelled: the
duplicate engine consults `file_name`, `size_bytes` and `bitrate`, and callers
read `path`; the `duration_secs` float and the `artist`/`title`/`album` tag
options are never touched by the matching code. -/
structure AudioFile where
  path : String
  file_name : String
  size_bytes : Nat
  bitrate : Option Nat
deriving DecidableEq

/-- Result record for one confirmed duplicate pair (duplicate.rs lines 7-13). -/
structure DuplicateMatch where
  higher_quality : AudioFile
  lower_quality : AudioFile
  match_reason : String
  quality_difference : String
deriving DecidableEq

/-- Aggregate result of a scan (duplicate.rs lines 15-19). -/
structure DuplicateResults where
  «matches» : List DuplicateMatch
  total_files_scanned : Nat
deriving DecidableEq

/-- Model of `DuplicateAnalyzer::normalize_artist` (duplicate.rs lines 36-61):
lower-case, rewrite featuring abbreviations, split on commas, trim each name and
cut it at an opening parenthesis, sort, and rejoin with a comma and space. -/
def normalize_artist (artist : String) : String :=
  let normalized :=
    replaceStr (replaceStr (replaceStr (lowerStr artist) ("feat.") ("featuring")) ("ft.") ("featuring")) (" x ") (" featuring ")
  let artists := (splitCharStr normalized ',').map (fun s =>
    let artist_name := trimStr s
    match findCharIdx artist_name.data '(' with
    | some paren_start => trimStr ⟨artist_name.data.take paren_start⟩
    | none => artist_name)
  joinStrs (", ") (sortStrs artists)

/-- Keyword list of `DuplicateAnalyzer::is_version_marker` (duplicate.rs lines 65-69). -/
def version_markers : List String :=
  ["remix", "mix", "edit", "version", "extended",
   "radio", "club", "dub", "instrumental", "remaster",
   "bootleg", "mashup", "flip", "recut", "reprise"]

/-- Model of `DuplicateAnalyzer::is_version_marker` (duplicate.rs lines 63-84):
true when the lower-cased text contains one of the fifteen keywords as a
substring, or contains at least four ASCII digits (bare-year heuristic). -/
def is_version_marker (text : String) : Bool :=
  let text_lower := lowerStr text
  version_markers.any (fun marker => containsStr text_lower marker) ||
    decide (4 ≤ (text_lower.data.filter Char.isDigit).length)

/-- Steps 1-3 of `DuplicateAnalyzer::clean_title` (duplicate.rs lines 86-98):
strip the extension after the last dot, delete square brackets, turn
underscores into spaces, trim, and strip a leading track-number prefix. -/
def cleaned_name (filename : String) : String :=
  let without_ext : String :=
    match rfindCharIdx filename.data '.' with
    | some i => ⟨filename.data.take i⟩
    | none => filename
  let without_numbers :=
    trimL ((without_ext.data.filter (fun c => !(c == '[' || c == ']'))).map
      (fun c => if c == '_' then ' ' else c))
  ⟨stripTrackNumber without_numbers⟩

/-- Joining of the segments after the first separator, modelling
`parts[1..].join(" - ")` (duplicate.rs line 107). -/
def title_part (parts : List String) : String := joinStrs (" - ") (parts.drop 1)

/-- Parenthetical version extraction of `clean_title` (duplicate.rs lines
110-129): find the last opening parenthesis and the next closing one after it;
the enclosed text becomes the version only when `is_version_marker` accepts it,
otherwise the parenthetical stays in the title; with no parenthesis or no
closing parenthesis the whole (trimmed) string is the title. -/
def extract_version (title_parts : String) : String × Option String :=
  match rfindCharIdx title_parts.data '(' with
  | some paren_start =>
    match findCharIdx (title_parts.data.drop paren_start) ')' with
    | some paren_end =>
      let version_text := trimStr ⟨(title_parts.data.drop (paren_start + 1)).take (paren_end - 1)⟩
      if is_version_marker version_text then
        (trimStr ⟨title_parts.data.take paren_start⟩, some (lowerStr version_text))
      else (trimStr title_parts, none)
    | none => (trimStr title_parts, none)
  | none => (trimStr title_parts, none)

/-- Model of `DuplicateAnalyzer::clean_title` (duplicate.rs lines 86-132),
returning the (artist, title, version) triple.  When the cleaned name has no
`" - "` separator, the cleaned name itself is returned in the artist component
with no title and no version. -/
def clean_title (filename : String) : String × Option String × Option String :=
  let without_numbers := cleaned_name filename
  let parts := splitOnStr without_numbers (" - ")
  if parts.length < 2 then (without_numbers, none, none)
  else
    let artist := normalize_artist (trimStr (parts.headD ("")))
    let title_parts := title_part parts
    let cv := extract_version title_parts
    (artist, some (lowerStr cv.1), cv.2)

/-- Core marker list of `DuplicateAnalyzer::are_different_versions`
(duplicate.rs line 146). -/
def core_markers : List String := ["extended", "remix", "mix", "edit", "version"]

/-- Model of `DuplicateAnalyzer::are_different_versions` (duplicate.rs lines
134-168).  Two absent annotations are the same version; an annotation paired
with nothing differs exactly when it is a version marker; two present
annotations are the same version only when both are markers and their sets of
matched core markers intersect. -/
def are_different_versions : Option String → Option String → Bool
  | some v1, some v2 =>
    let contains_marker1 := is_version_marker v1
    let contains_marker2 := is_version_marker v2
    if contains_marker1 && contains_marker2 then
      let v1_lower := lowerStr v1
      let v2_lower := lowerStr v2
      let v1_types := core_markers.filter (fun marker => containsStr v1_lower marker)
      let v2_types := core_markers.filter (fun marker => containsStr v2_lower marker)
      if v1_types.any (fun t => v2_types.contains t) then false else true
    else true
  | some v, none => is_version_marker v
  | none, some v => is_version_marker v
  | none, none => false

/-- Model of `DuplicateAnalyzer::get_formatted_reason` (duplicate.rs lines 170-183). -/
def get_formatted_reason (artist title : String) (version1 version2 : Option String) : String :=
  let version_info :=
    if version1 == version2 then
      match version1 with
      | some v => " (" ++ v ++ ")"
      | none => ""
    else
      match version1, version2 with
      | some v1, some _ => " (" ++ v1 ++ ")"
      | some v1, none => " (" ++ v1 ++ ")"
      | none, some v2 => " (" ++ v2 ++ ")"
      | none, none => ""
  "Exact title match: '" ++ artist ++ " - " ++ title ++ version_info ++ "'"

/-- Size and identical-file fall-through of
`DuplicateAnalyzer::determine_quality_difference` (duplicate.rs lines 247-256):
when sizes differ the larger file wins, otherwise the first argument is kept. -/
def size_comparison (file1 file2 : AudioFile) : Bool × String :=
  if file1.size_bytes ≠ file2.size_bytes then
    (decide (file1.size_bytes > file2.size_bytes),
     "Size difference: " ++ fmtMB file1.size_bytes ++ " MB vs " ++ fmtMB file2.size_bytes ++ " MB")
  else (true, "Files are identical in size and bitrate")

/-- Model of `DuplicateAnalyzer::determine_quality_difference` (duplicate.rs
lines 226-257): with two known, differing bitrates a lowercase `.flac` name
suffix wins outright, otherwise the higher bitrate; with no bitrate decision the
comparison falls through to `size_comparison`. -/
def determine_quality_difference (file1 file2 : AudioFile) : Bool × String :=
  match file1.bitrate, file2.bitrate with
  | some b1, some b2 =>
    if b1 ≠ b2 then
      (if endsWithStr file1.file_name (".flac") && !endsWithStr file2.file_name (".flac") then true
       else if !endsWithStr file1.file_name (".flac") && endsWithStr file2.file_name (".flac") then false
       else decide (b1 > b2),
       "Bitrate difference: " ++ natStr b1 ++ " vs " ++ natStr b2 ++ " kbps")
    else size_comparison file1 file2
  | _, _ => size_comparison file1 file2

/-- Model of `DuplicateAnalyzer::are_duplicates` (duplicate.rs lines 185-224):
exact match on normalized artist and title, version equivalence via
`are_different_versions`, then quality comparison; the winner becomes
`higher_quality`. -/
def are_duplicates (file1 file2 : AudioFile) : Option DuplicateMatch :=
  match clean_title file1.file_name, clean_title file2.file_name with
  | (artist1, title1, version1), (artist2, title2, version2) =>
    if artist1 ≠ artist2 then none
    else
      match title1, title2 with
      | some t1, some t2 =>
        if t1 ≠ t2 then none
        else if are_different_versions version1 version2 then none
        else
          let match_reason := get_formatted_reason artist1 t1 version1 version2
          let qd := determine_quality_difference file1 file2
          let hl := if qd.1 then (file1, file2) else (file2, file1)
          some { higher_quality := hl.1, lower_quality := hl.2,
                 match_reason := match_reason, quality_difference := qd.2 }
      | _, _ => none

/-- Functional model of `ParallelProcessor::parallel_compare` (parallel.rs):
for every index pair i < j, in index order, apply the comparison and keep the
hits.  Rayon's indexed fan-out with an order-preserving collect yields exactly
this list. -/
def parallel_compare {T R : Type} : List T → (T → T → Option R) → List R
  | [], _ => []
  | x :: rest, f => rest.filterMap (f x) ++ parallel_compare rest f

/-- Model of `DuplicateAnalyzer::find_duplicates` (duplicate.rs lines 259-303),
with the console progress reporting (side effects only) elided: an empty input
returns the empty result immediately; otherwise every unordered pair is
compared. -/
def find_duplicates (files : List AudioFile) : DuplicateResults :=
  if files.isEmpty then { «matches» := [], total_files_scanned := 0 }
  else
    { «matches» := parallel_compare files are_duplicates,
      total_files_scanned := files.length }

/-!
Helper lemmas shared by the claim theorems below.
-/

/-- Characterization of the intersection test the engine performs on two
filtered marker lists: some element of `A.filter p` occurs in `A.filter q`
exactly when some element of `A` satisfies both predicates. -/
theorem filter_any_contains_iff (A : List String) (p q : String → Bool) :
    ((A.filter p).any (fun t => (A.filter q).contains t)) = true ↔
      ∃ m, m ∈ A ∧ p m = true ∧ q m = true := by
  simp only [List.any_eq_true, List.elem_eq_mem, List.mem_filter, decide_eq_true_eq]
  constructor
  · rintro ⟨t, ⟨hA, hp⟩, _, hq⟩
    exact ⟨t, hA, hp, hq⟩
  · rintro ⟨m, hA, hp, hq⟩
    exact ⟨m, ⟨hA, hp⟩, ⟨hA, hq⟩⟩

/-- Version-difference classification is symmetric in its two arguments. -/
theorem are_different_versions_symm (v1 v2 : Option String) :
    are_different_versions v1 v2 = are_different_versions v2 v1 := by
  have h : ∀ a b : String,
      ((core_markers.filter fun marker => containsStr (lowerStr a) marker).any
        (fun t => (core_markers.filter fun marker => containsStr (lowerStr b) marker).contains t)) =
      ((core_markers.filter fun marker => containsStr (lowerStr b) marker).any
        (fun t => (core_markers.filter fun marker => containsStr (lowerStr a) marker).contains t)) := by
    intro a b
    rw [Bool.eq_iff_iff, filter_any_contains_iff, filter_any_contains_iff]
    constructor
    · rintro ⟨m, h1, h2, h3⟩; exact ⟨m, h1, h3, h2⟩
    · rintro ⟨m, h1, h2, h3⟩; exact ⟨m, h1, h3, h2⟩
  rcases v1 with _ | s1 <;> rcases v2 with _ | s2 <;> simp only [are_different_versions]
  rw [Bool.and_comm, h s1 s2]

/-- Strict natural comparison flips under exchange of distinct operands. -/
theorem decide_gt_ne (m n : Nat) (h : m ≠ n) : decide (n > m) = !decide (m > n) := by
  rcases Nat.lt_or_gt_of_ne h with h' | h'
  · simp [gt_iff_lt, h', Nat.lt_asymm h']
  · simp [gt_iff_lt, h', Nat.lt_asymm h']

/-- With distinct sizes, the size comparison's winner flag flips when the
arguments are exchanged. -/
theorem size_comparison_fst_antisymm (a b : AudioFile) (h : a.size_bytes ≠ b.size_bytes) :
    (size_comparison b a).1 = !(size_comparison a b).1 := by
  simp only [size_comparison]
  rw [if_pos (Ne.symm h), if_pos h]
  exact decide_gt_ne _ _ h

/-- When the bitrate branch does not decide (no two known, differing bitrates),
the quality comparison reduces to the size comparison. -/
theorem dqd_size_path (f1 f2 : AudioFile)
    (hno : ¬∃ b1 b2, f1.bitrate = some b1 ∧ f2.bitrate = some b2 ∧ b1 ≠ b2) :
    determine_quality_difference f1 f2 = size_comparison f1 f2 := by
  rcases hb1 : f1.bitrate with _ | x <;> rcases hb2 : f2.bitrate with _ | y <;>
    simp only [determine_quality_difference, hb1, hb2]
  have hxy : x = y := by
    by_contra hc
    exact hno ⟨x, y, hb1, hb2, hc⟩
  rw [if_neg (by simp [hxy])]

/-- Outside a complete tie (some pair of known bitrates differs, or the sizes
differ) the winner flag of the quality comparison flips when the arguments are
exchanged. -/
theorem determine_quality_fst_antisymm (a b : AudioFile)
    (h : (∃ x y, a.bitrate = some x ∧ b.bitrate = some y ∧ x ≠ y) ∨ a.size_bytes ≠ b.size_bytes) :
    (determine_quality_difference b a).1 = !(determine_quality_difference a b).1 := by
  rcases ha : a.bitrate with _ | x
  · have hsz : a.size_bytes ≠ b.size_bytes := by
      rcases h with ⟨x, y, hax, _, _⟩ | hsz
      · rw [ha] at hax; cases hax
      · exact hsz
    rcases hb : b.bitrate with _ | y <;>
      simp only [determine_quality_difference, ha, hb] <;>
      exact size_comparison_fst_antisymm a b hsz
  · rcases hb : b.bitrate with _ | y
    · have hsz : a.size_bytes ≠ b.size_bytes := by
        rcases h with ⟨x', y', _, hby, _⟩ | hsz
        · rw [hb] at hby; cases hby
        · exact hsz
      simp only [determine_quality_difference, ha, hb]
      exact size_comparison_fst_antisymm a b hsz
    · by_cases hxy : x = y
      · have hsz : a.size_bytes ≠ b.size_bytes := by
          rcases h with ⟨x', y', hax, hby, hne⟩ | hsz
          · rw [ha] at hax; rw [hb] at hby; cases hax; cases hby
            exact absurd hxy hne
          · exact hsz
        simp only [determine_quality_difference, ha, hb]
        rw [if_neg (by simp [hxy]), if_neg (by simp [hxy])]
        exact size_comparison_fst_antisymm a b hsz
      · simp only [determine_quality_difference, ha, hb]
        rw [if_pos hxy, if_pos (Ne.symm hxy)]
        cases he1 : endsWithStr a.file_name (".flac") <;>
          cases he2 : endsWithStr b.file_name (".flac") <;>
          simp [he1, he2]
        · exact decide_gt_ne x y hxy
        · exact decide_gt_ne x y hxy

/-!
Claim theorems.
-/

/-- Claim C1 (counterexample): the annotations of "Artist - Track (2017)" and
"Artist - Track (2019)" both classify as version markers (four digits each),
yet the engine treats them as different versions — they share no core marker
and textual identity is never consulted — so no match is produced, contrary to
the claim. -/
theorem bare_year_annotations_not_equivalent :
    is_version_marker ("2017") = true ∧ is_version_marker ("2019") = true ∧
      are_different_versions (some ("2017")) (some ("2019")) = true ∧
      are_duplicates ⟨"p1", "Artist - Track (2017).mp3", 100, some 320⟩
          ⟨"p2", "Artist - Track (2019).mp3", 100, some 320⟩ = none :=
  ⟨by decide, by decide, by decide, by decide⟩

/-- Claim C1 (amended): for two annotations both classified as markers, the
engine treats them as the same version exactly when their sets of matched core
markers (extended, remix, mix, edit, version) intersect; neither general
keyword intersection nor textual identity of the raw strings enters the
decision. -/
theorem marker_equivalence_iff_shared_core_marker (v1 v2 : String)
    (h1 : is_version_marker v1 = true) (h2 : is_version_marker v2 = true) :
    are_different_versions (some v1) (some v2) = false ↔
      ∃ m, m ∈ core_markers ∧ containsStr (lowerStr v1) m = true ∧
        containsStr (lowerStr v2) m = true := by
  have hx := filter_any_contains_iff core_markers
    (fun marker => containsStr (lowerStr v1) marker)
    (fun marker => containsStr (lowerStr v2) marker)
  rcases hB : (core_markers.filter fun marker => containsStr (lowerStr v1) marker).any
      (fun t => (core_markers.filter fun marker => containsStr (lowerStr v2) marker).contains t) with _ | _
  · have hval : are_different_versions (some v1) (some v2) = true := by
      simp only [are_different_versions, h1, h2, hB]
      decide
    rw [hval]
    constructor
    · intro hc; exact absurd hc (by decide)
    · intro hex
      have hc := hx.mpr hex
      rw [hB] at hc
      exact absurd hc (by decide)
  · have hval : are_different_versions (some v1) (some v2) = false := by
      simp only [are_different_versions, h1, h2, hB]
      decide
    rw [hval]
    exact ⟨fun _ => hx.mp hB, fun _ => rfl⟩

/-- Claim C1 (witness for the amended theorem): "remix" and "club mix" are both
markers, so the equivalence characterization applies to them. -/
theorem marker_equivalence_shared_core_witness :
    are_different_versions (some ("remix")) (some ("club mix")) = false ↔
      ∃ m, m ∈ core_markers ∧ containsStr (lowerStr ("remix")) m = true ∧
        containsStr (lowerStr ("club mix")) m = true :=
  marker_equivalence_iff_shared_core_marker ("remix") ("club mix") (by decide) (by decide)

/-- Claim C2 (counterexample): for the separator-free filename "My Song.mp3"
the normalizer returns the cleaned string in the artist component only — the
title component is `none`, not a copy of the cleaned string — and the returned
artist "My Song" is not lower-cased. -/
theorem no_separator_title_is_none :
    clean_title ("My Song.mp3") = ("My Song", none, none) ∧
      ("My Song" : String) ≠ "my song" :=
  ⟨by decide, by decide⟩

/-- Claim C2 (amended): whenever the cleaned filename splits into fewer than two
segments on the literal " - " separator, the normalizer returns the whole
cleaned string as the artist component with title `none` and version `none`
(no lower-casing is applied on this path). -/
theorem clean_title_no_separator (filename : String)
    (h : (splitOnStr (cleaned_name filename) (" - ")).length < 2) :
    clean_title filename = (cleaned_name filename, none, none) := by
  simp only [clean_title]
  rw [if_pos h]

/-- Claim C2 (witness): the dash-free filename "Song.mp3". -/
theorem clean_title_no_separator_witness :
    clean_title ("Song.mp3") = (cleaned_name ("Song.mp3"), none, none) :=
  clean_title_no_separator ("Song.mp3") (by decide)

/-- Claim C6 (counterexample): ampersand-joined artists are not split, so
"A & B" normalizes to "a & b" while "B, A" normalizes to "a, b" — the two are
not identical, contrary to the claim. -/
theorem ampersand_artists_not_split :
    normalize_artist ("A & B") = "a & b" ∧ normalize_artist ("B, A") = "a, b" ∧
      ("a & b" : String) ≠ "a, b" :=
  ⟨by decide, by decide, by decide⟩

/-- Claim C6 (amended): artist normalization lower-cases, splits on commas,
sorts and comma-joins, so the comma-separated permutations "A, B" and "B, A"
both normalize to "a, b"; an ampersand-joined field is treated as a single
name and stays "a & b". -/
theorem artist_sorting_comma_join :
    normalize_artist ("A, B") = "a, b" ∧ normalize_artist ("B, A") = "a, b" ∧
      normalize_artist ("A & B") = "a & b" :=
  ⟨by decide, by decide, by decide⟩

/-- Claim C7 (counterexample): "rework" and "dj" belong to the spec's extended
vocabulary but the classifier does not recognize them — each yields `false`. -/
theorem extended_vocabulary_not_recognized :
    is_version_marker ("rework") = false ∧ is_version_marker ("dj") = false :=
  ⟨by decide, by decide⟩

/-- Claim C7 (amended): the classifier returns a boolean and accepts exactly
the strings whose lower-cased form contains one of the fifteen keywords of
`version_markers` as a substring, or contains at least four ASCII digits. -/
theorem version_marker_iff (s : String) :
    is_version_marker s = true ↔
      ((∃ m, m ∈ version_markers ∧ containsStr (lowerStr s) m = true) ∨
        4 ≤ ((lowerStr s).data.filter Char.isDigit).length) := by
  simp [is_version_marker]

/-- Claim C9: the empty input collection yields the empty result with zero
files scanned; the empty input is a defined terminal case of the scan. -/
theorem find_duplicates_empty :
    find_duplicates [] = { «matches» := [], total_files_scanned := 0 } := rfl

/-- Claim C3 (counterexample): the parenthetical "(demo)" contains no marker
keyword, so the normalizer keeps it inside the title and extracts no version —
contrary to the claim that extraction happens regardless of classification. -/
theorem non_marker_parenthetical_kept :
    clean_title ("Artist - Track (demo).mp3") = ("artist", some ("track (demo)"), none) := by
  decide

set_option maxHeartbeats 1000000 in
/-- Claim C3 (amended): when the title part has a last opening paren at `ps`
with a closing paren after it, the enclosed text becomes the version — and the
title becomes the text before the paren, trimmed and lower-cased — only when
the enclosed text passes `is_version_marker`; otherwise the parenthetical is
kept in the title and the version is `none`. -/
theorem clean_title_paren_extraction (fn tp : String) (ps pe : Nat)
    (htp : tp = title_part (splitOnStr (cleaned_name fn) (" - ")))
    (h2 : 2 ≤ (splitOnStr (cleaned_name fn) (" - ")).length)
    (hps : rfindCharIdx tp.data '(' = some ps)
    (hpe : findCharIdx (tp.data.drop ps) ')' = some pe) :
    (is_version_marker (trimStr ⟨(tp.data.drop (ps + 1)).take (pe - 1)⟩) = true →
      clean_title fn =
        (normalize_artist (trimStr ((splitOnStr (cleaned_name fn) (" - ")).headD (""))),
         some (lowerStr (trimStr ⟨tp.data.take ps⟩)),
         some (lowerStr (trimStr ⟨(tp.data.drop (ps + 1)).take (pe - 1)⟩)))) ∧
    (is_version_marker (trimStr ⟨(tp.data.drop (ps + 1)).take (pe - 1)⟩) = false →
      clean_title fn =
        (normalize_artist (trimStr ((splitOnStr (cleaned_name fn) (" - ")).headD (""))),
         some (lowerStr (trimStr tp)), none)) := by
  subst htp
  constructor <;> intro hm <;>
    simp only [clean_title, extract_version, if_neg (Nat.not_lt.mpr h2), hps, hpe, hm,
      if_true, if_false, Bool.false_eq_true, eq_self_iff_true]

/-- Claim C3 (witness): "Artist - Track (Club Remix).mp3" carries the marker
"remix", so the parenthetical is extracted as the version. -/
theorem clean_title_paren_extraction_witness :
    clean_title ("Artist - Track (Club Remix).mp3") =
      ("artist", some ("track"), some ("club remix")) := by
  have h := (clean_title_paren_extraction ("Artist - Track (Club Remix).mp3")
    ("Track (Club Remix)") 6 11 (by decide) (by decide) (by decide) (by decide)).1 (by decide)
  exact h.trans (by decide)

set_option maxHeartbeats 1000000 in
/-- Claim C8: normalization is total by construction in this embedding, and a
title whose last opening paren has no closing paren after it degrades
gracefully — the whole (trimmed, lower-cased) title is kept and no version is
extracted, with nothing removed. -/
theorem clean_title_unmatched_paren (fn tp : String) (ps : Nat)
    (htp : tp = title_part (splitOnStr (cleaned_name fn) (" - ")))
    (h2 : 2 ≤ (splitOnStr (cleaned_name fn) (" - ")).length)
    (hps : rfindCharIdx tp.data '(' = some ps)
    (hpe : findCharIdx (tp.data.drop ps) ')' = none) :
    clean_title fn =
      (normalize_artist (trimStr ((splitOnStr (cleaned_name fn) (" - ")).headD (""))),
       some (lowerStr (trimStr tp)), none) := by
  subst htp
  simp only [clean_title, extract_version, if_neg (Nat.not_lt.mpr h2), hps, hpe]

/-- Claim C8 (witness): "A - B (unfinished" has an opening paren with no
closing paren; the title keeps the full text and no version is produced. -/
theorem clean_title_unmatched_paren_witness :
    clean_title ("A - B (unfinished") = ("a", some ("b (unfinished"), none) := by
  have h := clean_title_unmatched_paren ("A - B (unfinished") ("B (unfinished") 2
    (by decide) (by decide) (by decide) (by decide)
  exact h.trans (by decide)

/-- Claim C4: the quality comparison follows the decision order of the spec —
known differing bitrates decide first (lowercase `.flac` suffix wins outright,
otherwise the higher bitrate, with a kbps explanation), then differing sizes
(larger wins, with a two-decimal megabyte explanation), and otherwise the
first argument is kept with an explanation that no difference was found. -/
theorem quality_difference_decision_order (f1 f2 : AudioFile) :
    (∀ b1 b2, f1.bitrate = some b1 → f2.bitrate = some b2 → b1 ≠ b2 →
      ((endsWithStr f1.file_name (".flac") = true ∧ endsWithStr f2.file_name (".flac") = false →
          (determine_quality_difference f1 f2).1 = true) ∧
       (endsWithStr f1.file_name (".flac") = false ∧ endsWithStr f2.file_name (".flac") = true →
          (determine_quality_difference f1 f2).1 = false) ∧
       (endsWithStr f1.file_name (".flac") = endsWithStr f2.file_name (".flac") →
          (determine_quality_difference f1 f2).1 = decide (b1 > b2)) ∧
       (determine_quality_difference f1 f2).2 =
         "Bitrate difference: " ++ natStr b1 ++ " vs " ++ natStr b2 ++ " kbps")) ∧
    ((¬∃ b1 b2, f1.bitrate = some b1 ∧ f2.bitrate = some b2 ∧ b1 ≠ b2) →
      f1.size_bytes ≠ f2.size_bytes →
      determine_quality_difference f1 f2 =
        (decide (f1.size_bytes > f2.size_bytes),
         "Size difference: " ++ fmtMB f1.size_bytes ++ " MB vs " ++ fmtMB f2.size_bytes ++ " MB")) ∧
    ((¬∃ b1 b2, f1.bitrate = some b1 ∧ f2.bitrate = some b2 ∧ b1 ≠ b2) →
      f1.size_bytes = f2.size_bytes →
      determine_quality_difference f1 f2 = (true, "Files are identical in size and bitrate")) := by
  refine ⟨?_, ?_, ?_⟩
  · intro b1 b2 hb1 hb2 hne
    simp only [determine_quality_difference, hb1, hb2, if_pos hne]
    refine ⟨?_, ?_, ?_, ?_⟩
    · rintro ⟨he1, he2⟩; simp [he1, he2]
    · rintro ⟨he1, he2⟩; simp [he1, he2]
    · intro he
      cases hA : endsWithStr f1.file_name (".flac") <;>
        cases hB : endsWithStr f2.file_name (".flac") <;>
        rw [hA, hB] at he <;>
        simp at he ⊢
    · trivial
  · intro hno hsz
    rw [dqd_size_path f1 f2 hno]
    simp only [size_comparison, if_pos hsz]
  · intro hno hsz
    rw [dqd_size_path f1 f2 hno]
    simp only [size_comparison]
    rw [if_neg (by simp [hsz])]

/-- Claim C4 (witness): with bitrates 1000 and 320 and a lowercase `.flac`
name on the first file, the first file wins with the kbps explanation. -/
theorem quality_difference_decision_order_witness :
    (determine_quality_difference ⟨"p", "a.flac", 30000000, some 1000⟩
        ⟨"q", "a.mp3", 8000000, some 320⟩).1 = true ∧
      (determine_quality_difference ⟨"p", "a.flac", 30000000, some 1000⟩
          ⟨"q", "a.mp3", 8000000, some 320⟩).2 = "Bitrate difference: 1000 vs 320 kbps" := by
  have h := (quality_difference_decision_order ⟨"p", "a.flac", 30000000, some 1000⟩
    ⟨"q", "a.mp3", 8000000, some 320⟩).1 1000 320 rfl rfl (by decide)
  exact ⟨h.1 ⟨by decide, by decide⟩, h.2.2.2.trans (by decide)⟩

/-- Claim C10: the lossless preference tests the literal lowercase suffix
".flac" only — when neither name carries that exact suffix (including names
ending in ".FLAC") the verdict in the differing-bitrate branch is the higher
numeric bitrate — and when no two known bitrates differ, the result is
independent of both file names. -/
theorem flac_check_lowercase_only (f1 f2 : AudioFile) :
    (∀ b1 b2, f1.bitrate = some b1 → f2.bitrate = some b2 → b1 ≠ b2 →
      endsWithStr f1.file_name (".flac") = false → endsWithStr f2.file_name (".flac") = false →
      (determine_quality_difference f1 f2).1 = decide (b1 > b2)) ∧
    (∀ n1 n2, (¬∃ b1 b2, f1.bitrate = some b1 ∧ f2.bitrate = some b2 ∧ b1 ≠ b2) →
      determine_quality_difference { f1 with file_name := n1 } { f2 with file_name := n2 } =
        determine_quality_difference f1 f2) := by
  constructor
  · intro b1 b2 hb1 hb2 hne he1 he2
    simp only [determine_quality_difference, hb1, hb2, if_pos hne]
    simp [he1, he2]
  · intro n1 n2 hno
    rw [dqd_size_path f1 f2 hno, dqd_size_path _ _ (by simpa using hno)]
    rfl

/-- Claim C10 (witness): a file named with the uppercase suffix ".FLAC" gets no
extension preference, so the higher bitrate wins; and with no usable bitrates
the result ignores the file names. -/
theorem flac_check_lowercase_only_witness :
    (determine_quality_difference ⟨"p", "Track.FLAC", 10, some 400⟩
        ⟨"q", "Track.mp3", 10, some 320⟩).1 = true ∧
      determine_quality_difference ⟨"p", "x.mp3", 10, none⟩ ⟨"q", "y.mp3", 12, none⟩ =
        determine_quality_difference ⟨"p", "a", 10, none⟩ ⟨"q", "b", 12, none⟩ := by
  constructor
  · have h := (flac_check_lowercase_only ⟨"p", "Track.FLAC", 10, some 400⟩
      ⟨"q", "Track.mp3", 10, some 320⟩).1 400 320 rfl rfl (by decide) (by decide) (by decide)
    exact h.trans (by decide)
  · exact (flac_check_lowercase_only ⟨"p", "a", 10, none⟩ ⟨"q", "b", 12, none⟩).2
      ("x.mp3") ("y.mp3") (by simp)

/-- Claim C5 (counterexample): two files that match, with no usable bitrate and
equal sizes, fall into the complete-tie branch, where each invocation keeps its
own first argument — the two argument orders place different descriptors in
`higher_quality`. -/
theorem tie_break_winner_depends_on_order :
    (are_duplicates ⟨"p", "01. A - B.mp3", 100, none⟩ ⟨"q", "02. A - B.mp3", 100, none⟩).map
        (fun m => m.higher_quality) = some ⟨"p", "01. A - B.mp3", 100, none⟩ ∧
      (are_duplicates ⟨"q", "02. A - B.mp3", 100, none⟩ ⟨"p", "01. A - B.mp3", 100, none⟩).map
          (fun m => m.higher_quality) = some ⟨"q", "02. A - B.mp3", 100, none⟩ ∧
      (⟨"p", "01. A - B.mp3", 100, none⟩ : AudioFile) ≠ ⟨"q", "02. A - B.mp3", 100, none⟩ :=
  ⟨by decide, by decide, by decide⟩

/-- Claim C5 (amended): `are_duplicates` is symmetric in whether a match
exists, and whenever the pair is not a complete tie (some pair of known
bitrates differs, or the byte sizes differ) both argument orders place the same
descriptor in `higher_quality`; only in a complete tie does each invocation
keep its own first argument. -/
theorem match_existence_symm_winner_agrees (a b : AudioFile) :
    (are_duplicates a b).isSome = (are_duplicates b a).isSome ∧
      (((∃ x y, a.bitrate = some x ∧ b.bitrate = some y ∧ x ≠ y) ∨
          a.size_bytes ≠ b.size_bytes) →
        (are_duplicates a b).map (fun m => m.higher_quality) =
          (are_duplicates b a).map (fun m => m.higher_quality)) := by
  rcases h1 : clean_title a.file_name with ⟨a1, t1, v1⟩
  rcases h2 : clean_title b.file_name with ⟨a2, t2, v2⟩
  by_cases ha : a1 = a2
  · rcases t1 with _ | s1 <;> rcases t2 with _ | s2
    · exact ⟨by simp [are_duplicates, h1, h2, ha], fun _ => by simp [are_duplicates, h1, h2, ha]⟩
    · exact ⟨by simp [are_duplicates, h1, h2, ha], fun _ => by simp [are_duplicates, h1, h2, ha]⟩
    · exact ⟨by simp [are_duplicates, h1, h2, ha], fun _ => by simp [are_duplicates, h1, h2, ha]⟩
    · by_cases hs : s1 = s2
      · rcases hv : are_different_versions v1 v2 with _ | _
        · -- same version: a match is produced in both directions
          have hv' : are_different_versions v2 v1 = false := by
            rw [← are_different_versions_symm v1 v2]; exact hv
          constructor
          · simp [are_duplicates, h1, h2, ha, hs, hv, hv']
          · intro hcond
            have hanti := determine_quality_fst_antisymm a b hcond
            simp only [are_duplicates, h1, h2, ha, hs, hv, hv']
            rw [hanti]
            cases hw : (determine_quality_difference a b).1 <;> simp [hw]
        · have hv' : are_different_versions v2 v1 = true := by
            rw [← are_different_versions_symm v1 v2]; exact hv
          exact ⟨by simp [are_duplicates, h1, h2, ha, hs, hv, hv'],
            fun _ => by simp [are_duplicates, h1, h2, ha, hs, hv, hv']⟩
      · have hs' : s2 ≠ s1 := fun hc => hs hc.symm
        exact ⟨by simp [are_duplicates, h1, h2, ha, hs, hs'],
          fun _ => by simp [are_duplicates, h1, h2, ha, hs, hs']⟩
  · have ha' : a2 ≠ a1 := fun hc => ha hc.symm
    exact ⟨by simp [are_duplicates, h1, h2, ha, ha'],
      fun _ => by simp [are_duplicates, h1, h2, ha, ha']⟩

/-- Claim C5 (witness): two matching files with differing known bitrates — not
a tie — so both argument orders report the same winner. -/
theorem match_existence_symm_winner_agrees_witness :
    (are_duplicates ⟨"p", "A - B.mp3", 5000000, some 320⟩
        ⟨"q", "A - B.flac", 9000000, some 1000⟩).map (fun m => m.higher_quality) =
      (are_duplicates ⟨"q", "A - B.flac", 9000000, some 1000⟩
          ⟨"p", "A - B.mp3", 5000000, some 320⟩).map (fun m => m.higher_quality) :=
  (match_existence_symm_winner_agrees ⟨"p", "A - B.mp3", 5000000, some 320⟩
      ⟨"q", "A - B.flac", 9000000, some 1000⟩).2
    (Or.inl ⟨320, 1000, rfl, rfl, by decide⟩)
